import Mathlib

/-!
# Verification of the email-send-time-optimizer time-slot analysis engine

Shallow embedding of `src/utils/analysisEngine.ts` (the time-slot scoring and
analysis engine of the email-send-time-optimizer tool) together with proofs of
the specified properties.

Modelling conventions:
* JavaScript numbers are modelled as exact rationals (`Rat`); every arithmetic
  operation the engine performs (sums, arithmetic means, fixed 70/30 and 60/40
  weightings) is expressed exactly.
* `new Date()` (the wall clock) is modelled by an explicit `now : Int`
  parameter (milliseconds since the epoch), and `Date` values occurring in the
  data (`sendDate`) by their `getTime()` value, an `Int`.
* The engine's `Map<string, _>` keyed by the template string
  `` `${dayOfWeek}-${hourOfDay}` `` is modelled as an insertion-ordered
  association list keyed by the pair `(dayOfWeek, hourOfDay)`: `dayOfWeek` is
  one of the seven weekday names produced by the upstream normalizer (they
  contain no `"-"`) and `hourOfDay` is a natural number rendered as digits, so
  the template string is in bijection with the pair and
  `key.split("-")` / `parseInt` recover exactly the pair's components.
  JavaScript `Map` preserves insertion order and `set` on an existing key
  updates the value in place, which the `upsert` function below reproduces.
* `throw new Error(msg)` is modelled by `Except.error msg`.
-/

namespace EmailSendTimeOptimizer

/-- `FilterOptions` from `src/types`: caller-supplied categorical equality
filters; each field is a specific string or the wildcard sentinel `"All"`. -/
structure FilterOptions where
  businessUnit : String
  organizationType : String
  campaignType : String
  deriving DecidableEq, Repr

/-- `ProcessedEmailData` from `src/types` (the spec's `EmailRecord`): one
normalized record per sent campaign. `sendDate` is the `getTime()` value of
the record's send timestamp. Only `dayOfWeek`, `hourOfDay`, `openRate`,
`clickRate` and `sendDate` are read by the analysis engine. -/
structure ProcessedEmailData where
  businessUnit : String
  organizationType : String
  campaignType : String
  sendDate : Int
  dayOfWeek : String
  hourOfDay : Nat
  openRate : Rat
  clickRate : Rat
  unsubscribeRate : Rat
  bounceRate : Rat
  deriving DecidableEq, Repr

/-- `TimeSlotAnalysis` from `src/types` (the spec's `TimeSlotBucket`): the
aggregate computed for one (dayOfWeek, hourOfDay) bucket. -/
structure TimeSlotAnalysis where
  dayOfWeek : String
  hourOfDay : Nat
  timeLabel : String
  avgOpenRate : Rat
  avgClickRate : Rat
  sampleSize : Nat
  score : Rat
  deriving DecidableEq, Repr

/-- `BestPractice` from `src/types`: one row of the fixed industry
best-practices table. -/
structure BestPractice where
  dayOfWeek : String
  hourOfDay : Nat
  timeLabel : String
  score : Rat
  reasoning : String
  deriving DecidableEq, Repr

/-- The `dateRange` metadata field. The source calls the second field `end`,
which is a Lean keyword, so it is named `stop` here. -/
structure DateRange where
  start : Int
  stop : Int
  deriving DecidableEq, Repr

/-- The `metadata` member of `AnalysisResult`. `timestamp` is the `getTime()`
value of the generation timestamp. -/
structure AnalysisMetadata where
  totalRecords : Nat
  dateRange : DateRange
  filters : FilterOptions
  analysisType : String
  timestamp : Int
  deriving DecidableEq, Repr

/-- `AnalysisResult` from `src/types`: top-3 ranked buckets, the full ranked
list, and metadata. -/
structure AnalysisResult where
  primary : TimeSlotAnalysis
  secondary : TimeSlotAnalysis
  tertiary : TimeSlotAnalysis
  allTimeSlots : List TimeSlotAnalysis
  metadata : AnalysisMetadata
  deriving DecidableEq, Repr

/-- `formatTimeLabel` from `src/utils/validation.ts`: renders the hour as a
12-hour clock label — `period` is `"PM"` for hours ≥ 12, hour 0 displays
as 12, hours above 12 are shifted down by 12. -/
def formatTimeLabel (hour : Nat) : String :=
  let period := if hour ≥ 12 then "PM" else "AM"
  let displayHour := if hour = 0 then 12 else if hour > 12 then hour - 12 else hour
  toString displayHour ++ ":00 " ++ period

/-- The module-level `BEST_PRACTICES` constant: the fixed table of 5 industry
best-practice entries, in its curated order. -/
def BEST_PRACTICES : List BestPractice :=
  [ { dayOfWeek := "Tuesday", hourOfDay := 10, timeLabel := "10:00 AM",
      score := 95,
      reasoning :=
        "Peak engagement time - people are settled into work and checking emails" },
    { dayOfWeek := "Thursday", hourOfDay := 14, timeLabel := "2:00 PM",
      score := 90,
      reasoning := "Post-lunch period with high email activity" },
    { dayOfWeek := "Wednesday", hourOfDay := 9, timeLabel := "9:00 AM",
      score := 85,
      reasoning := "Mid-week morning when inboxes are being cleared" },
    { dayOfWeek := "Tuesday", hourOfDay := 14, timeLabel := "2:00 PM",
      score := 82,
      reasoning := "Strong afternoon engagement on Tuesday" },
    { dayOfWeek := "Thursday", hourOfDay := 10, timeLabel := "10:00 AM",
      score := 80,
      reasoning := "Late-week morning with good open rates" } ]

/-- `createEmptyTimeSlot`: the sentinel bucket used to fill missing
primary/secondary/tertiary slots. -/
def createEmptyTimeSlot : TimeSlotAnalysis :=
  { dayOfWeek := "N/A"
    hourOfDay := 0
    timeLabel := "N/A"
    avgOpenRate := 0
    avgClickRate := 0
    sampleSize := 0
    score := 0 }

/-- JavaScript `Map` lookup (`map.get(k)`) on an insertion-ordered association
list: the value at the first occurrence of key `k`, if any. -/
def assocFind {κ β : Type} [DecidableEq κ] (k : κ) : List (κ × β) → Option β
  | [] => none
  | p :: m => if p.1 = k then some p.2 else assocFind k m

/-- The `Map` update pattern used throughout the engine: if key `k` is
present, replace its value `v` by `f v` in place (JS mutates the stored value
or `set`s an existing key, keeping its position); otherwise append `(k, d)`
at the end (JS `set` of a fresh key appends in insertion order). -/
def upsert {κ β : Type} [DecidableEq κ] (m : List (κ × β)) (k : κ) (f : β → β)
    (d : β) : List (κ × β) :=
  if m.any (fun p => p.1 = k) then
    m.map (fun p => if p.1 = k then (p.1, f p.2) else p)
  else
    m ++ [(k, d)]

/-- The grouping key of a record: the engine's
`` `${row.dayOfWeek}-${row.hourOfDay}` `` map key, represented as the pair it
encodes. -/
def slotKey (r : ProcessedEmailData) : String × Nat := (r.dayOfWeek, r.hourOfDay)

/-- One iteration of the grouping loop of `analyzeHistoricalData`: ensure the
record's slot has an entry and push the record onto it. -/
def groupStep (m : List ((String × Nat) × List ProcessedEmailData))
    (r : ProcessedEmailData) : List ((String × Nat) × List ProcessedEmailData) :=
  upsert m (slotKey r) (fun l => l ++ [r]) [r]

/-- The grouping loop of `analyzeHistoricalData`: bucket the records by
(dayOfWeek, hourOfDay), in key-encounter order. -/
def groupBySlot (data : List ProcessedEmailData) :
    List ((String × Nat) × List ProcessedEmailData) :=
  data.foldl groupStep []

/-- The per-bucket statistics of `analyzeHistoricalData`: arithmetic means of
`openRate` and `clickRate`, the sample count, and the 70/30 weighted score.
The bucket's `dayOfWeek`/`hourOfDay` are the components the source recovers
from the map key via `key.split("-")` and `parseInt`. -/
def mkTimeSlot (key : String × Nat) (records : List ProcessedEmailData) :
    TimeSlotAnalysis :=
  let avgOpenRate : Rat := (records.map (fun r => r.openRate)).sum / records.length
  let avgClickRate : Rat := (records.map (fun r => r.clickRate)).sum / records.length
  { dayOfWeek := key.1
    hourOfDay := key.2
    timeLabel := formatTimeLabel key.2
    avgOpenRate := avgOpenRate
    avgClickRate := avgClickRate
    sampleSize := records.length
    score := avgOpenRate * (7/10) + avgClickRate * (3/10) }

/-- `timeSlots.sort((a, b) => b.score - a.score)`: stable sort by score
descending (V8's `Array.prototype.sort` is stable, as is `List.mergeSort`). -/
def sortByScoreDesc (l : List TimeSlotAnalysis) : List TimeSlotAnalysis :=
  l.mergeSort (fun a b => decide (b.score ≤ a.score))

/-- The body of `analyzeHistoricalData` after its emptiness guard (the guard
itself is `analyzeHistoricalData` below). -/
def analyzeHistoricalCore (data : List ProcessedEmailData)
    (filters : FilterOptions) (now : Int) : AnalysisResult :=
  let timeSlots := (groupBySlot data).map (fun p => mkTimeSlot p.1 p.2)
  let sorted := sortByScoreDesc timeSlots
  let dates := data.map (fun r => r.sendDate)
  { primary := (sorted[0]?).getD createEmptyTimeSlot
    secondary := (sorted[1]?).getD createEmptyTimeSlot
    tertiary := (sorted[2]?).getD createEmptyTimeSlot
    allTimeSlots := sorted
    metadata :=
      { totalRecords := data.length
        dateRange := { start := (dates.min?).getD 0, stop := (dates.max?).getD 0 }
        filters := filters
        analysisType := "historical"
        timestamp := now } }

/-- `analyzeHistoricalData`: throws `"No data available for analysis"` on an
empty record list, otherwise performs the historical analysis. -/
def analyzeHistoricalData (data : List ProcessedEmailData)
    (filters : FilterOptions) (now : Int) : Except String AnalysisResult :=
  if data = [] then Except.error "No data available for analysis"
  else Except.ok (analyzeHistoricalCore data filters now)

/-- `analyzeBestPractices`: turns each of the 5 `BEST_PRACTICES` rows into a
bucket (sampleSize 0, avgOpenRate = score, avgClickRate = score × 0.3) in the
table's order, with hard-coded `"All"` filters and clock-valued date range.
The source indexes `allTimeSlots[0..2]` directly into the 5-element list;
`getD` agrees with that there. -/
def analyzeBestPractices (now : Int) : AnalysisResult :=
  let allTimeSlots : List TimeSlotAnalysis := BEST_PRACTICES.map (fun bp =>
    { dayOfWeek := bp.dayOfWeek
      hourOfDay := bp.hourOfDay
      timeLabel := bp.timeLabel
      avgOpenRate := bp.score
      avgClickRate := bp.score * (3/10)
      sampleSize := 0
      score := bp.score })
  { primary := (allTimeSlots[0]?).getD createEmptyTimeSlot
    secondary := (allTimeSlots[1]?).getD createEmptyTimeSlot
    tertiary := (allTimeSlots[2]?).getD createEmptyTimeSlot
    allTimeSlots := allTimeSlots
    metadata :=
      { totalRecords := 0
        dateRange := { start := now, stop := now }
        filters :=
          { businessUnit := "All", organizationType := "All", campaignType := "All" }
        analysisType := "best-practices"
        timestamp := now } }

/-- One iteration of the best-practices merge loop of `analyzeCombined`: if a
bucket with the entry's key exists, blend score and rates 60/40 in place
(keeping its `sampleSize`); otherwise append the best-practice bucket with
its score scaled by 0.4 and `sampleSize := 0`. -/
def bpMergeStep (m : List ((String × Nat) × TimeSlotAnalysis))
    (slot : TimeSlotAnalysis) : List ((String × Nat) × TimeSlotAnalysis) :=
  upsert m (slot.dayOfWeek, slot.hourOfDay)
    (fun ex =>
      { ex with
        score := ex.score + slot.score * (4/10)
        avgOpenRate := ex.avgOpenRate * (6/10) + slot.avgOpenRate * (4/10)
        avgClickRate := ex.avgClickRate * (6/10) + slot.avgClickRate * (4/10) })
    { slot with score := slot.score * (4/10), sampleSize := 0 }

/-- One iteration of the historical seeding loop of `analyzeCombined`:
`combinedMap.set(key, {...slot, score: slot.score * 0.6})`. -/
def histSeedStep (m : List ((String × Nat) × TimeSlotAnalysis))
    (slot : TimeSlotAnalysis) : List ((String × Nat) × TimeSlotAnalysis) :=
  upsert m (slot.dayOfWeek, slot.hourOfDay)
    (fun _ => { slot with score := slot.score * (6/10) })
    { slot with score := slot.score * (6/10) }

/-- The `combinedMap` of `analyzeCombined` after both loops: the historical
buckets seeded at 60% score, then the 5 best-practice buckets merged at 40%
weight. -/
def combinedSlotMap (data : List ProcessedEmailData) (filters : FilterOptions)
    (now : Int) : List ((String × Nat) × TimeSlotAnalysis) :=
  (analyzeBestPractices now).allTimeSlots.foldl bpMergeStep
    ((analyzeHistoricalCore data filters now).allTimeSlots.foldl histSeedStep [])

/-- `analyzeCombined`: falls back to best practices on empty input; otherwise
seeds a map with the historical buckets at 60% score, merges the 5
best-practice buckets at 40% weight, and re-sorts by score descending. -/
def analyzeCombined (data : List ProcessedEmailData) (filters : FilterOptions)
    (now : Int) : AnalysisResult :=
  if data = [] then analyzeBestPractices now
  else
    let historical := analyzeHistoricalCore data filters now
    let allTimeSlots :=
      sortByScoreDesc ((combinedSlotMap data filters now).map (fun p => p.2))
    { primary := (allTimeSlots[0]?).getD createEmptyTimeSlot
      secondary := (allTimeSlots[1]?).getD createEmptyTimeSlot
      tertiary := (allTimeSlots[2]?).getD createEmptyTimeSlot
      allTimeSlots := allTimeSlots
      metadata :=
        { totalRecords := data.length
          dateRange := historical.metadata.dateRange
          filters := filters
          analysisType := "combined"
          timestamp := now } }

/-- `performAnalysis`: the top-level dispatcher over the analysis type. The
TS `AnalysisType` is a string union, so the type is a `String` here; the
`default` switch branch throws naming the unknown type. -/
def performAnalysis (data : List ProcessedEmailData) (analysisType : String)
    (filters : FilterOptions) (now : Int) : Except String AnalysisResult :=
  if analysisType = "best-practices" then Except.ok (analyzeBestPractices now)
  else if analysisType = "historical" then analyzeHistoricalData data filters now
  else if analysisType = "combined" then
    Except.ok (analyzeCombined data filters now)
  else Except.error ("Unknown analysis type: " ++ analysisType)

/-- The keys of an association list, in order. -/
def keysOf {κ β : Type} [DecidableEq κ] (m : List (κ × β)) : List κ :=
  m.map Prod.fst

/-- The grouping key of a bucket (the pair encoded by the engine's
`` `${slot.dayOfWeek}-${slot.hourOfDay}` `` map key). -/
def bucketKey (b : TimeSlotAnalysis) : String × Nat := (b.dayOfWeek, b.hourOfDay)

/-- Erase the clock-derived metadata of a result: the generation `timestamp`,
and — exactly when the result is a best-practices result, whose `dateRange` is
a placeholder read off the clock rather than computed from the data — the
`dateRange` as well. Used to state what of the claimed determinism survives
the wall-clock timestamp. -/
def eraseClock (r : AnalysisResult) : AnalysisResult :=
  { r with
    metadata :=
      { r.metadata with
        timestamp := 0
        dateRange :=
          if r.metadata.analysisType = "best-practices" then { start := 0, stop := 0 }
          else r.metadata.dateRange } }

/-- A concrete record used to instantiate the theorems (the spec's scenario-8
shape). -/
def mkSampleRecord (d : String) (h : Nat) (o c : Rat) : ProcessedEmailData :=
  { businessUnit := "Marketing"
    organizationType := "Nonprofit"
    campaignType := "Newsletter"
    sendDate := 1700000000000
    dayOfWeek := d
    hourOfDay := h
    openRate := o
    clickRate := c
    unsubscribeRate := 0
    bounceRate := 0 }

/-- The spec's scenario-8 data set: two Tuesday-10 records and one
Friday-16 record. -/
def sampleData : List ProcessedEmailData :=
  [ mkSampleRecord "Tuesday" 10 40 5,
    mkSampleRecord "Tuesday" 10 60 15,
    mkSampleRecord "Friday" 16 10 1 ]

/-- A concrete non-wildcard filter set used to instantiate the theorems. -/
def sampleFilters : FilterOptions :=
  { businessUnit := "Sales", organizationType := "Corporate", campaignType := "Promo" }

/-!
## Association-list lemmas

The engine's `Map` usage is modelled by `assocFind`/`upsert` on
insertion-ordered association lists; these lemmas characterise lookups,
keys and `foldl`-built maps.
-/

section AssocLemmas

variable {κ β α : Type} [DecidableEq κ]

lemma assocFind_cons (p : κ × β) (m : List (κ × β)) (k : κ) :
    assocFind k (p :: m) = if p.1 = k then some p.2 else assocFind k m := rfl

lemma assocFind_map_upd_self (m : List (κ × β)) (k : κ) (f : β → β) :
    assocFind k (m.map fun p => if p.1 = k then (p.1, f p.2) else p) =
      (assocFind k m).map f := by
  induction m with
  | nil => rfl
  | cons p m ih =>
    by_cases h : p.1 = k
    · simp [assocFind_cons, h]
    · simp [assocFind_cons, h, ih]

lemma assocFind_map_upd_ne (m : List (κ × β)) (k k' : κ) (f : β → β) (h : k' ≠ k) :
    assocFind k' (m.map fun p => if p.1 = k then (p.1, f p.2) else p) =
      assocFind k' m := by
  induction m with
  | nil => rfl
  | cons p m ih =>
    by_cases hp : p.1 = k
    · have hk : ¬(k = k') := fun e => h e.symm
      simp [assocFind_cons, hp, hk, ih]
    · simp [assocFind_cons, hp, ih]

lemma assocFind_append_single (m : List (κ × β)) (k k' : κ) (d : β) :
    assocFind k' (m ++ [(k, d)]) =
      match assocFind k' m with
      | some v => some v
      | none => if k = k' then some d else none := by
  induction m with
  | nil => simp [assocFind_cons, assocFind]
  | cons p m ih =>
    by_cases hp : p.1 = k'
    · simp [assocFind_cons, hp]
    · simp [assocFind_cons, hp, ih]

lemma any_key_eq (m : List (κ × β)) (k : κ) :
    (m.any fun p => p.1 = k) = (assocFind k m).isSome := by
  induction m with
  | nil => rfl
  | cons p m ih => by_cases hp : p.1 = k <;> simp [assocFind_cons, hp, ih]

lemma mem_keysOf (m : List (κ × β)) (k : κ) :
    k ∈ keysOf m ↔ (assocFind k m).isSome := by
  induction m with
  | nil => simp [keysOf, assocFind]
  | cons p m ih =>
    by_cases hp : p.1 = k
    · simp [keysOf, assocFind_cons, hp]
    · have : k ≠ p.1 := fun e => hp e.symm
      simpa [keysOf, assocFind_cons, hp, this] using ih

lemma assocFind_upsert_self (m : List (κ × β)) (k : κ) (f : β → β) (d : β) :
    assocFind k (upsert m k f d) = some ((assocFind k m).elim d f) := by
  unfold upsert
  by_cases h : (m.any fun p => p.1 = k) = true
  · rw [if_pos h, assocFind_map_upd_self]
    rw [any_key_eq] at h
    obtain ⟨v, hv⟩ := Option.isSome_iff_exists.1 h
    rw [hv]; rfl
  · rw [if_neg h, assocFind_append_single]
    rw [any_key_eq] at h
    have h2 : assocFind k m = none := Option.not_isSome_iff_eq_none.1 h
    simp [h2]

lemma assocFind_upsert_ne (m : List (κ × β)) (k k' : κ) (f : β → β) (d : β)
    (h : k' ≠ k) :
    assocFind k' (upsert m k f d) = assocFind k' m := by
  unfold upsert
  by_cases hany : (m.any fun p => p.1 = k) = true
  · rw [if_pos hany, assocFind_map_upd_ne _ _ _ _ h]
  · rw [if_neg hany, assocFind_append_single]
    cases hm : assocFind k' m with
    | some v => rfl
    | none =>
      have hk : ¬(k = k') := fun e => h e.symm
      simp [hm, hk]

lemma keysOf_upsert (m : List (κ × β)) (k : κ) (f : β → β) (d : β) :
    keysOf (upsert m k f d) =
      if (assocFind k m).isSome then keysOf m else keysOf m ++ [k] := by
  unfold upsert
  rw [any_key_eq]
  by_cases h : (assocFind k m).isSome
  · rw [if_pos h, if_pos h]
    simp only [keysOf, List.map_map]
    apply List.map_congr_left
    intro p _
    by_cases hp : p.1 = k <;> simp [hp, Function.comp]
  · rw [if_neg h, if_neg h]
    simp [keysOf]

lemma keysOf_upsert_nodup (m : List (κ × β)) (k : κ) (f : β → β) (d : β)
    (h : (keysOf m).Nodup) : (keysOf (upsert m k f d)).Nodup := by
  rw [keysOf_upsert]
  by_cases hs : (assocFind k m).isSome
  · rwa [if_pos hs]
  · rw [if_neg hs, List.nodup_append]
    refine ⟨h, List.nodup_singleton k, ?_⟩
    intro a ha hak
    rw [List.mem_singleton] at hak
    subst hak
    exact hs ((mem_keysOf m a).1 ha)

lemma assocFind_mem (m : List (κ × β)) (k : κ) (v : β)
    (h : assocFind k m = some v) : (k, v) ∈ m := by
  induction m with
  | nil => simp [assocFind] at h
  | cons p m ih =>
    rw [assocFind_cons] at h
    by_cases hp : p.1 = k
    · rw [if_pos hp] at h
      have hv : p.2 = v := by injection h
      have : p = (k, v) := by
        cases p; cases hp; cases hv; rfl
      rw [← this]; exact List.mem_cons_self p m
    · rw [if_neg hp] at h
      exact List.mem_cons_of_mem _ (ih h)

lemma mem_assocFind_of_nodup (m : List (κ × β)) (h : (keysOf m).Nodup)
    {k : κ} {v : β} (hm : (k, v) ∈ m) : assocFind k m = some v := by
  induction m with
  | nil => cases hm
  | cons p m ih =>
    have hnd : (keysOf m).Nodup := (List.nodup_cons.1 h).2
    have hhead : p.1 ∉ keysOf m := (List.nodup_cons.1 h).1
    rcases List.mem_cons.1 hm with rfl | hm'
    · simp [assocFind_cons]
    · have hk : k ∈ keysOf m := by
        have := List.mem_map_of_mem Prod.fst hm'
        simpa [keysOf] using this
      have hp : p.1 ≠ k := fun e => hhead (e ▸ hk)
      rw [assocFind_cons, if_neg hp]
      exact ih hnd hm'

end AssocLemmas

section FoldLemmas

variable {κ β α : Type} [DecidableEq κ]

lemma foldl_upsert_isSome (keyf : α → κ) (ff : α → β → β) (df : α → β)
    (l : List α) (m : List (κ × β)) (k : κ) :
    (assocFind k (l.foldl (fun m x => upsert m (keyf x) (ff x) (df x)) m)).isSome
      ↔ (assocFind k m).isSome ∨ k ∈ l.map keyf := by
  induction l generalizing m with
  | nil => simp
  | cons x l ih =>
    simp only [List.foldl_cons, List.map_cons, List.mem_cons]
    rw [ih]
    by_cases hx : k = keyf x
    · subst hx
      rw [assocFind_upsert_self]
      simp
    · rw [assocFind_upsert_ne _ _ _ _ _ hx]
      simp only [hx, false_or]

lemma foldl_upsert_nodup (keyf : α → κ) (ff : α → β → β) (df : α → β)
    (l : List α) (m : List (κ × β)) (h : (keysOf m).Nodup) :
    (keysOf (l.foldl (fun m x => upsert m (keyf x) (ff x) (df x)) m)).Nodup := by
  induction l generalizing m with
  | nil => exact h
  | cons x l ih =>
    simp only [List.foldl_cons]
    exact ih _ (keysOf_upsert_nodup _ _ _ _ h)

lemma foldl_upsert_find_of_nodup (keyf : α → κ) (ff : α → β → β) (df : α → β)
    (l : List α) (m : List (κ × β)) (hl : (l.map keyf).Nodup) (k : κ) :
    assocFind k (l.foldl (fun m x => upsert m (keyf x) (ff x) (df x)) m) =
      match l.find? (fun x => keyf x = k) with
      | some x => some ((assocFind k m).elim (df x) (ff x))
      | none => assocFind k m := by
  induction l generalizing m with
  | nil => simp
  | cons x l ih =>
    have hl' : (l.map keyf).Nodup := (List.nodup_cons.1 (by simpa using hl)).2
    have hxl : keyf x ∉ l.map keyf := (List.nodup_cons.1 (by simpa using hl)).1
    simp only [List.foldl_cons]
    rw [ih _ hl']
    by_cases hx : keyf x = k
    · have hnone : l.find? (fun y => decide (keyf y = k)) = none := by
        rw [List.find?_eq_none]
        intro y hy hdec
        rw [decide_eq_true_eq] at hdec
        exact hxl (by rw [hx, ← hdec]; exact List.mem_map_of_mem keyf hy)
      rw [hnone, List.find?_cons_of_pos _ (by simpa using hx)]
      subst hx
      rw [assocFind_upsert_self]
    · have hne : k ≠ keyf x := fun e => hx e.symm
      rw [List.find?_cons_of_neg _ (by simpa using hx)]
      cases hfind : l.find? (fun y => decide (keyf y = k)) with
      | some y => simp only [hfind, assocFind_upsert_ne _ _ _ _ _ hne]
      | none => simp only [hfind, assocFind_upsert_ne _ _ _ _ _ hne]

lemma foldl_upsert_forall (P : κ × β → Prop) (keyf : α → κ) (ff : α → β → β)
    (df : α → β) (l : List α) (m : List (κ × β))
    (hm : ∀ p ∈ m, P p)
    (hf : ∀ x ∈ l, ∀ b, P (keyf x, b) → P (keyf x, ff x b))
    (hd : ∀ x ∈ l, P (keyf x, df x)) :
    ∀ p ∈ l.foldl (fun m x => upsert m (keyf x) (ff x) (df x)) m, P p := by
  induction l generalizing m with
  | nil => exact hm
  | cons x l ih =>
    simp only [List.foldl_cons]
    refine ih _ ?_ (fun y hy => hf y (List.mem_cons_of_mem _ hy))
      (fun y hy => hd y (List.mem_cons_of_mem _ hy))
    intro p hp
    unfold upsert at hp
    by_cases hany : (m.any fun q => q.1 = keyf x) = true
    · rw [if_pos hany] at hp
      obtain ⟨q, hq, hpq⟩ := List.mem_map.1 hp
      by_cases hqk : q.1 = keyf x
      · rw [if_pos hqk] at hpq
        have hPq : P (keyf x, q.2) := by
          have := hm q hq
          rwa [show q = (keyf x, q.2) from by cases q; cases hqk; rfl] at this
        rw [← hpq, hqk]
        exact hf x (List.mem_cons_self x l) q.2 hPq
      · rw [if_neg hqk] at hpq
        rw [← hpq]
        exact hm q hq
    · rw [if_neg hany] at hp
      rcases List.mem_append.1 hp with hp' | hp'
      · exact hm p hp'
      · rw [List.mem_singleton] at hp'
        rw [hp']
        exact hd x (List.mem_cons_self x l)

lemma find?_keyf_of_nodup (keyf : α → κ) (l : List α)
    (hl : (l.map keyf).Nodup) {x : α} (hx : x ∈ l) :
    l.find? (fun y => keyf y = keyf x) = some x := by
  induction l with
  | nil => cases hx
  | cons z l ih =>
    have hl' : (l.map keyf).Nodup := (List.nodup_cons.1 (by simpa using hl)).2
    have hzl : keyf z ∉ l.map keyf := (List.nodup_cons.1 (by simpa using hl)).1
    rcases List.mem_cons.1 hx with rfl | hx'
    · exact List.find?_cons_of_pos _ (by simp)
    · have hz : keyf z ≠ keyf x :=
        fun e => hzl (e ▸ List.mem_map_of_mem keyf hx')
      rw [List.find?_cons_of_neg _ (by simpa using hz)]
      exact ih hl' hx'

end FoldLemmas

/-!
## Grouping lemmas

Characterisation of the historical grouping loop: the bucket stored under a
key is exactly the sublist of records carrying that key, in input order.
-/

section GroupLemmas

lemma map_upd_id {κ β : Type} [DecidableEq κ] (m : List (κ × β)) (k : κ)
    (f : β → β) (h : ∀ p ∈ m, p.1 ≠ k) :
    (m.map fun p => if p.1 = k then (p.1, f p.2) else p) = m := by
  conv_rhs => rw [← List.map_id m]
  exact List.map_congr_left fun p hp => by simp [h p hp]

lemma foldl_groupStep_find (data : List ProcessedEmailData)
    (m : List ((String × Nat) × List ProcessedEmailData)) (k : String × Nat) :
    assocFind k (data.foldl groupStep m) =
      match assocFind k m with
      | some l => some (l ++ data.filter (fun r => slotKey r = k))
      | none =>
        if data.filter (fun r => slotKey r = k) = [] then none
        else some (data.filter (fun r => slotKey r = k)) := by
  induction data generalizing m with
  | nil =>
    simp only [List.foldl_nil, List.filter_nil]
    cases hm : assocFind k m <;> simp
  | cons r data ih =>
    simp only [List.foldl_cons]
    rw [ih]
    by_cases hr : slotKey r = k
    · subst hr
      have hfilter : List.filter (fun x => decide (slotKey x = slotKey r)) (r :: data)
          = r :: List.filter (fun x => decide (slotKey x = slotKey r)) data := by
        simp [List.filter_cons]
      rw [hfilter]
      rw [show groupStep m r = upsert m (slotKey r) (fun l => l ++ [r]) [r] from rfl]
      rw [assocFind_upsert_self]
      cases hm : assocFind (slotKey r) m with
      | some l => simp [List.append_assoc]
      | none =>
        simp only [Option.elim]
        have hcons :
            ¬(r :: data.filter (fun x => slotKey x = slotKey r) = []) :=
          List.cons_ne_nil _ _
        rw [if_neg hcons]
        simp
    · have hne : ¬(decide (slotKey r = k) = true) := by simpa using hr
      rw [List.filter_cons, if_neg hne]
      rw [show groupStep m r = upsert m (slotKey r) (fun l => l ++ [r]) [r] from rfl]
      rw [assocFind_upsert_ne _ _ _ _ _ (fun e => hr e.symm)]

lemma groupBySlot_find (data : List ProcessedEmailData) (k : String × Nat) :
    assocFind k (groupBySlot data) =
      if data.filter (fun r => slotKey r = k) = [] then none
      else some (data.filter (fun r => slotKey r = k)) := by
  have h := foldl_groupStep_find data [] k
  simpa [groupBySlot] using h

lemma groupBySlot_keys_nodup (data : List ProcessedEmailData) :
    (keysOf (groupBySlot data)).Nodup :=
  foldl_upsert_nodup slotKey (fun r l => l ++ [r]) (fun r => [r]) data []
    (by simp [keysOf])

lemma groupStep_sumLen (m : List ((String × Nat) × List ProcessedEmailData))
    (r : ProcessedEmailData) (h : (keysOf m).Nodup) :
    ((groupStep m r).map fun p => p.2.length).sum =
      ((m.map fun p => p.2.length)).sum + 1 := by
  rw [show groupStep m r = upsert m (slotKey r) (fun l => l ++ [r]) [r] from rfl]
  unfold upsert
  by_cases hany : (m.any fun p => p.1 = slotKey r) = true
  · rw [if_pos hany]
    rw [any_key_eq] at hany
    have hk : slotKey r ∈ keysOf m := (mem_keysOf m (slotKey r)).2 hany
    clear hany
    induction m with
    | nil => cases hk
    | cons p m ih =>
      have hnd : (keysOf m).Nodup := (List.nodup_cons.1 h).2
      have hhead : p.1 ∉ keysOf m := (List.nodup_cons.1 h).1
      by_cases hp : p.1 = slotKey r
      · have hrest : ∀ q ∈ m, q.1 ≠ slotKey r := by
          intro q hq e
          exact hhead (hp ▸ e ▸ List.mem_map_of_mem Prod.fst hq)
        have hid := map_upd_id m (slotKey r) (fun l => l ++ [r]) hrest
        rw [List.map_cons, hid, if_pos hp]
        simp only [List.map_cons, List.sum_cons]
        simp [List.length_append]
        omega
      · have hk' : slotKey r ∈ keysOf m := by
          rcases (by simpa [keysOf] using hk : slotKey r = p.1 ∨ slotKey r ∈ keysOf m) with e | hm
          · exact absurd e.symm hp
          · exact hm
        simp only [List.map_cons, if_neg hp, List.sum_cons]
        rw [ih hnd hk']
        omega
  · rw [if_neg hany]
    simp

lemma foldl_groupStep_sumLen (data : List ProcessedEmailData)
    (m : List ((String × Nat) × List ProcessedEmailData))
    (h : (keysOf m).Nodup) :
    ((data.foldl groupStep m).map fun p => p.2.length).sum =
      ((m.map fun p => p.2.length)).sum + data.length := by
  induction data generalizing m with
  | nil => simp
  | cons r data ih =>
    simp only [List.foldl_cons, List.length_cons]
    have hnd : (keysOf (groupStep m r)).Nodup := keysOf_upsert_nodup _ _ _ _ h
    rw [ih _ hnd, groupStep_sumLen m r h]
    omega

end GroupLemmas

/-!
## Sorting and historical-bucket lemmas
-/

section SortLemmas

lemma sortByScoreDesc_perm (l : List TimeSlotAnalysis) :
    (sortByScoreDesc l).Perm l :=
  List.mergeSort_perm l _

lemma sortByScoreDesc_mem (l : List TimeSlotAnalysis) (b : TimeSlotAnalysis) :
    b ∈ sortByScoreDesc l ↔ b ∈ l :=
  (sortByScoreDesc_perm l).mem_iff

lemma sortByScoreDesc_sorted (l : List TimeSlotAnalysis) :
    List.Pairwise (fun a b => b.score ≤ a.score) (sortByScoreDesc l) := by
  have h := @List.sorted_mergeSort TimeSlotAnalysis
    (fun a b : TimeSlotAnalysis => decide (b.score ≤ a.score))
    (fun a b c hab hbc => by
      simp only [decide_eq_true_eq] at hab hbc ⊢
      exact le_trans hbc hab)
    (fun a b => by
      simp only [Bool.or_eq_true, decide_eq_true_eq]
      exact le_total b.score a.score)
    l
  exact h.imp fun hab => by simpa using hab

lemma bucketKey_mkTimeSlot (k : String × Nat) (l : List ProcessedEmailData) :
    bucketKey (mkTimeSlot k l) = k := by
  cases k; rfl

lemma analyzeHistoricalCore_allTimeSlots (data : List ProcessedEmailData)
    (filters : FilterOptions) (now : Int) :
    (analyzeHistoricalCore data filters now).allTimeSlots =
      sortByScoreDesc ((groupBySlot data).map fun p => mkTimeSlot p.1 p.2) := rfl

lemma mem_histSlots (data : List ProcessedEmailData) (filters : FilterOptions)
    (now : Int) (b : TimeSlotAnalysis) :
    b ∈ (analyzeHistoricalCore data filters now).allTimeSlots ↔
      ∃ p ∈ groupBySlot data, mkTimeSlot p.1 p.2 = b := by
  rw [analyzeHistoricalCore_allTimeSlots, sortByScoreDesc_mem, List.mem_map]

lemma histSlots_keys_nodup (data : List ProcessedEmailData)
    (filters : FilterOptions) (now : Int) :
    ((analyzeHistoricalCore data filters now).allTimeSlots.map bucketKey).Nodup := by
  rw [analyzeHistoricalCore_allTimeSlots]
  rw [((sortByScoreDesc_perm _).map bucketKey).nodup_iff]
  rw [List.map_map]
  have he : ((groupBySlot data).map (bucketKey ∘ fun p => mkTimeSlot p.1 p.2)) =
      (groupBySlot data).map Prod.fst :=
    List.map_congr_left fun p _ => bucketKey_mkTimeSlot p.1 p.2
  rw [he]
  exact groupBySlot_keys_nodup data

lemma histSlot_group (data : List ProcessedEmailData) (filters : FilterOptions)
    (now : Int) (b : TimeSlotAnalysis)
    (hb : b ∈ (analyzeHistoricalCore data filters now).allTimeSlots) :
    data.filter (fun r => slotKey r = bucketKey b) ≠ [] ∧
      b = mkTimeSlot (bucketKey b)
        (data.filter (fun r => slotKey r = bucketKey b)) := by
  obtain ⟨p, hp, rfl⟩ := (mem_histSlots data filters now _).1 hb
  rw [bucketKey_mkTimeSlot]
  have hfind : assocFind p.1 (groupBySlot data) = some p.2 :=
    mem_assocFind_of_nodup _ (groupBySlot_keys_nodup data) (by cases p; exact hp)
  rw [groupBySlot_find] at hfind
  by_cases hemp : data.filter (fun r => slotKey r = p.1) = []
  · rw [if_pos hemp] at hfind; cases hfind
  · rw [if_neg hemp] at hfind
    have hv : p.2 = data.filter (fun r => slotKey r = p.1) :=
      (Option.some.inj hfind).symm
    exact ⟨hemp, by rw [← hv]⟩

lemma histSlots_cover (data : List ProcessedEmailData) (filters : FilterOptions)
    (now : Int) (r : ProcessedEmailData) (hr : r ∈ data) :
    ∃ b ∈ (analyzeHistoricalCore data filters now).allTimeSlots,
      bucketKey b = slotKey r := by
  have hne : data.filter (fun x => slotKey x = slotKey r) ≠ [] := by
    intro h
    have hmem : r ∈ data.filter (fun x => slotKey x = slotKey r) :=
      List.mem_filter.2 ⟨hr, by simp⟩
    rw [h] at hmem
    cases hmem
  have hfind : assocFind (slotKey r) (groupBySlot data) =
      some (data.filter (fun x => slotKey x = slotKey r)) := by
    rw [groupBySlot_find, if_neg hne]
  have hmem := assocFind_mem _ _ _ hfind
  refine ⟨mkTimeSlot (slotKey r) (data.filter (fun x => slotKey x = slotKey r)),
    ?_, bucketKey_mkTimeSlot _ _⟩
  exact (mem_histSlots data filters now _).2 ⟨_, hmem, rfl⟩

lemma histSlots_sampleSize_sum (data : List ProcessedEmailData)
    (filters : FilterOptions) (now : Int) :
    ((analyzeHistoricalCore data filters now).allTimeSlots.map
      fun b => b.sampleSize).sum = data.length := by
  rw [analyzeHistoricalCore_allTimeSlots]
  rw [((sortByScoreDesc_perm _).map fun b => b.sampleSize).sum_eq]
  rw [List.map_map]
  have he : ((groupBySlot data).map
        ((fun b => b.sampleSize) ∘ fun p => mkTimeSlot p.1 p.2)) =
      (groupBySlot data).map fun p => p.2.length :=
    List.map_congr_left fun p _ => rfl
  rw [he]
  have h := foldl_groupStep_sumLen data [] (by simp [keysOf])
  simpa [groupBySlot] using h

end SortLemmas

/-!
## Combined-analysis lemmas
-/

section CombinedLemmas

lemma bpSlots_val (now : Int) :
    (analyzeBestPractices now).allTimeSlots = BEST_PRACTICES.map (fun bp =>
      { dayOfWeek := bp.dayOfWeek
        hourOfDay := bp.hourOfDay
        timeLabel := bp.timeLabel
        avgOpenRate := bp.score
        avgClickRate := bp.score * (3/10)
        sampleSize := 0
        score := bp.score }) := rfl

lemma bpSlots_keys (now : Int) :
    (analyzeBestPractices now).allTimeSlots.map bucketKey =
      BEST_PRACTICES.map (fun e => (e.dayOfWeek, e.hourOfDay)) := rfl

lemma bpSlots_keys_nodup (now : Int) :
    ((analyzeBestPractices now).allTimeSlots.map bucketKey).Nodup := by
  rw [bpSlots_keys]
  decide

lemma combined_allTimeSlots (data : List ProcessedEmailData)
    (filters : FilterOptions) (now : Int) (h : ¬(data = [])) :
    (analyzeCombined data filters now).allTimeSlots =
      sortByScoreDesc ((combinedSlotMap data filters now).map fun p => p.2) := by
  simp only [analyzeCombined, if_neg h]

lemma seeded_find (hs : List TimeSlotAnalysis) (hnd : (hs.map bucketKey).Nodup)
    (k : String × Nat) :
    assocFind k (hs.foldl histSeedStep []) =
      match hs.find? (fun s => bucketKey s = k) with
      | some s => some { s with score := s.score * (6/10) }
      | none => none := by
  have h := foldl_upsert_find_of_nodup bucketKey
    (fun s _ => { s with score := s.score * (6/10) })
    (fun s => { s with score := s.score * (6/10) }) hs [] hnd k
  cases hfind : hs.find? (fun s => decide (bucketKey s = k)) with
  | some s =>
    rw [hfind] at h
    exact h
  | none =>
    rw [hfind] at h
    exact h

lemma combinedSlotMap_find (data : List ProcessedEmailData)
    (filters : FilterOptions) (now : Int) (k : String × Nat) :
    assocFind k (combinedSlotMap data filters now) =
      match (analyzeBestPractices now).allTimeSlots.find?
          (fun s => bucketKey s = k) with
      | some s =>
        some ((assocFind k
            ((analyzeHistoricalCore data filters now).allTimeSlots.foldl
              histSeedStep [])).elim
          { s with score := s.score * (4/10), sampleSize := 0 }
          (fun ex =>
            { ex with
              score := ex.score + s.score * (4/10)
              avgOpenRate := ex.avgOpenRate * (6/10) + s.avgOpenRate * (4/10)
              avgClickRate := ex.avgClickRate * (6/10) + s.avgClickRate * (4/10) }))
      | none =>
        assocFind k
          ((analyzeHistoricalCore data filters now).allTimeSlots.foldl
            histSeedStep []) := by
  have h := foldl_upsert_find_of_nodup bucketKey
    (fun s ex =>
      { ex with
        score := ex.score + s.score * (4/10)
        avgOpenRate := ex.avgOpenRate * (6/10) + s.avgOpenRate * (4/10)
        avgClickRate := ex.avgClickRate * (6/10) + s.avgClickRate * (4/10) })
    (fun s => { s with score := s.score * (4/10), sampleSize := 0 })
    (analyzeBestPractices now).allTimeSlots
    ((analyzeHistoricalCore data filters now).allTimeSlots.foldl histSeedStep [])
    (bpSlots_keys_nodup now) k
  cases hfind : (analyzeBestPractices now).allTimeSlots.find?
      (fun s => decide (bucketKey s = k)) with
  | some s =>
    rw [hfind] at h
    exact h
  | none =>
    rw [hfind] at h
    exact h

lemma combinedSlotMap_keys_nodup (data : List ProcessedEmailData)
    (filters : FilterOptions) (now : Int) :
    (keysOf (combinedSlotMap data filters now)).Nodup := by
  have hseed : (keysOf
      ((analyzeHistoricalCore data filters now).allTimeSlots.foldl
        histSeedStep [])).Nodup :=
    foldl_upsert_nodup bucketKey
      (fun s _ => { s with score := s.score * (6/10) })
      (fun s => { s with score := s.score * (6/10) }) _ [] (by simp [keysOf])
  exact foldl_upsert_nodup bucketKey
    (fun s ex =>
      { ex with
        score := ex.score + s.score * (4/10)
        avgOpenRate := ex.avgOpenRate * (6/10) + s.avgOpenRate * (4/10)
        avgClickRate := ex.avgClickRate * (6/10) + s.avgClickRate * (4/10) })
    (fun s => { s with score := s.score * (4/10), sampleSize := 0 })
    _ _ hseed

lemma combinedSlotMap_entry_key (data : List ProcessedEmailData)
    (filters : FilterOptions) (now : Int) :
    ∀ p ∈ combinedSlotMap data filters now, bucketKey p.2 = p.1 := by
  have hseed : ∀ p ∈ (analyzeHistoricalCore data filters now).allTimeSlots.foldl
      histSeedStep [], bucketKey p.2 = p.1 :=
    foldl_upsert_forall (fun p => bucketKey p.2 = p.1) bucketKey
      (fun s _ => { s with score := s.score * (6/10) })
      (fun s => { s with score := s.score * (6/10) }) _ []
      (by intro p hp; cases hp)
      (fun x _ b _ => rfl)
      (fun x _ => rfl)
  exact foldl_upsert_forall (fun p => bucketKey p.2 = p.1) bucketKey
    (fun s ex =>
      { ex with
        score := ex.score + s.score * (4/10)
        avgOpenRate := ex.avgOpenRate * (6/10) + s.avgOpenRate * (4/10)
        avgClickRate := ex.avgClickRate * (6/10) + s.avgClickRate * (4/10) })
    (fun s => { s with score := s.score * (4/10), sampleSize := 0 })
    _ _ hseed
    (by
      intro x _ b hb
      rw [← hb]
      rfl)
    (fun x _ => rfl)

lemma combinedSlotMap_isSome (data : List ProcessedEmailData)
    (filters : FilterOptions) (now : Int) (k : String × Nat) :
    (assocFind k (combinedSlotMap data filters now)).isSome ↔
      k ∈ (analyzeHistoricalCore data filters now).allTimeSlots.map bucketKey ∨
        k ∈ BEST_PRACTICES.map (fun e => (e.dayOfWeek, e.hourOfDay)) := by
  have hbp := foldl_upsert_isSome bucketKey
    (fun s ex =>
      { ex with
        score := ex.score + s.score * (4/10)
        avgOpenRate := ex.avgOpenRate * (6/10) + s.avgOpenRate * (4/10)
        avgClickRate := ex.avgClickRate * (6/10) + s.avgClickRate * (4/10) })
    (fun s => { s with score := s.score * (4/10), sampleSize := 0 })
    (analyzeBestPractices now).allTimeSlots
    ((analyzeHistoricalCore data filters now).allTimeSlots.foldl histSeedStep [])
    k
  have hseed := foldl_upsert_isSome bucketKey
    (fun s _ => { s with score := s.score * (6/10) })
    (fun s => { s with score := s.score * (6/10) })
    (analyzeHistoricalCore data filters now).allTimeSlots [] k
  rw [show combinedSlotMap data filters now =
      (analyzeBestPractices now).allTimeSlots.foldl bpMergeStep
        ((analyzeHistoricalCore data filters now).allTimeSlots.foldl
          histSeedStep []) from rfl]
  rw [bpSlots_keys] at hbp
  constructor
  · intro h
    rcases hbp.1 h with h' | h'
    · rcases hseed.1 h' with h'' | h''
      · simp [assocFind] at h''
      · exact Or.inl h''
    · exact Or.inr h'
  · intro h
    rcases h with h' | h'
    · exact hbp.2 (Or.inl (hseed.2 (Or.inr h')))
    · exact hbp.2 (Or.inr h')

end CombinedLemmas

/-!
## The claims
-/

/-- C1: for every non-empty record list, historical analysis partitions the
records by their (dayOfWeek, hourOfDay) pair: the buckets' keys are distinct,
every record's pair is represented by a bucket, each bucket's `sampleSize` is
the number of records with its pair (so the sample sizes sum to the input
length), `avgOpenRate`/`avgClickRate` are the arithmetic means of the member
records' rates, and `score = avgOpenRate × 0.7 + avgClickRate × 0.3`. -/
theorem C1_historical_partition (data : List ProcessedEmailData)
    (filters : FilterOptions) (now : Int) (hne : data ≠ []) :
    analyzeHistoricalData data filters now =
        Except.ok (analyzeHistoricalCore data filters now) ∧
    ((analyzeHistoricalCore data filters now).allTimeSlots.map bucketKey).Nodup ∧
    (∀ r ∈ data, ∃ b ∈ (analyzeHistoricalCore data filters now).allTimeSlots,
        b.dayOfWeek = r.dayOfWeek ∧ b.hourOfDay = r.hourOfDay) ∧
    (∀ b ∈ (analyzeHistoricalCore data filters now).allTimeSlots,
        b.sampleSize = (data.filter (fun r => slotKey r = bucketKey b)).length ∧
        b.avgOpenRate =
          ((data.filter (fun r => slotKey r = bucketKey b)).map
              (fun r => r.openRate)).sum /
            ((data.filter (fun r => slotKey r = bucketKey b)).length : Rat) ∧
        b.avgClickRate =
          ((data.filter (fun r => slotKey r = bucketKey b)).map
              (fun r => r.clickRate)).sum /
            ((data.filter (fun r => slotKey r = bucketKey b)).length : Rat) ∧
        b.score = b.avgOpenRate * (7/10) + b.avgClickRate * (3/10)) ∧
    ((analyzeHistoricalCore data filters now).allTimeSlots.map
        (fun b => b.sampleSize)).sum = data.length := by
  refine ⟨by simp [analyzeHistoricalData, hne], histSlots_keys_nodup data filters now,
    ?_, ?_, histSlots_sampleSize_sum data filters now⟩
  · intro r hr
    obtain ⟨b, hb, hkey⟩ := histSlots_cover data filters now r hr
    exact ⟨b, hb, congrArg Prod.fst hkey, congrArg Prod.snd hkey⟩
  · intro b hb
    obtain ⟨hgrp, heq⟩ := histSlot_group data filters now b hb
    refine ⟨?_, ?_, ?_, ?_⟩
    · simpa [mkTimeSlot] using congrArg TimeSlotAnalysis.sampleSize heq
    · simpa [mkTimeSlot] using congrArg TimeSlotAnalysis.avgOpenRate heq
    · simpa [mkTimeSlot] using congrArg TimeSlotAnalysis.avgClickRate heq
    · rw [congrArg TimeSlotAnalysis.score heq,
        congrArg TimeSlotAnalysis.avgOpenRate heq,
        congrArg TimeSlotAnalysis.avgClickRate heq]
      simp [mkTimeSlot]

/-- Witness for C1 at the spec's scenario-8 data set. -/
theorem C1_historical_partition_witness :
    sampleData ≠ [] ∧
    (analyzeHistoricalData sampleData sampleFilters 7 =
        Except.ok (analyzeHistoricalCore sampleData sampleFilters 7) ∧
    ((analyzeHistoricalCore sampleData sampleFilters 7).allTimeSlots.map
        bucketKey).Nodup ∧
    (∀ r ∈ sampleData,
        ∃ b ∈ (analyzeHistoricalCore sampleData sampleFilters 7).allTimeSlots,
        b.dayOfWeek = r.dayOfWeek ∧ b.hourOfDay = r.hourOfDay) ∧
    (∀ b ∈ (analyzeHistoricalCore sampleData sampleFilters 7).allTimeSlots,
        b.sampleSize =
          (sampleData.filter (fun r => slotKey r = bucketKey b)).length ∧
        b.avgOpenRate =
          ((sampleData.filter (fun r => slotKey r = bucketKey b)).map
              (fun r => r.openRate)).sum /
            ((sampleData.filter (fun r => slotKey r = bucketKey b)).length : Rat) ∧
        b.avgClickRate =
          ((sampleData.filter (fun r => slotKey r = bucketKey b)).map
              (fun r => r.clickRate)).sum /
            ((sampleData.filter (fun r => slotKey r = bucketKey b)).length : Rat) ∧
        b.score = b.avgOpenRate * (7/10) + b.avgClickRate * (3/10)) ∧
    ((analyzeHistoricalCore sampleData sampleFilters 7).allTimeSlots.map
        (fun b => b.sampleSize)).sum = sampleData.length) :=
  ⟨by decide, C1_historical_partition sampleData sampleFilters 7 (by decide)⟩

/-- C2: for every non-empty record list, combined analysis keeps each
historical bucket with its score scaled by 0.6; where a best-practice entry
shares the bucket's (dayOfWeek, hourOfDay), score and rates are blended 60/40
(the entry contributing its score as open-rate value and score × 0.3 as
click-rate value) and `sampleSize` is retained; each best-practice entry
without a historical bucket is inserted with score = entry score × 0.4 and
`sampleSize = 0`; keys stay distinct and no other buckets appear. -/
theorem C2_combined_blend (data : List ProcessedEmailData)
    (filters : FilterOptions) (now : Int) (hne : data ≠ []) :
    (∀ s ∈ (analyzeHistoricalCore data filters now).allTimeSlots,
      bucketKey s ∉ BEST_PRACTICES.map (fun e => (e.dayOfWeek, e.hourOfDay)) →
      { s with score := s.score * (6/10) } ∈
        (analyzeCombined data filters now).allTimeSlots) ∧
    (∀ s ∈ (analyzeHistoricalCore data filters now).allTimeSlots,
      ∀ e ∈ BEST_PRACTICES, bucketKey s = (e.dayOfWeek, e.hourOfDay) →
      ∃ b ∈ (analyzeCombined data filters now).allTimeSlots,
        b.dayOfWeek = s.dayOfWeek ∧ b.hourOfDay = s.hourOfDay ∧
        b.score = s.score * (6/10) + e.score * (4/10) ∧
        b.avgOpenRate = s.avgOpenRate * (6/10) + e.score * (4/10) ∧
        b.avgClickRate = s.avgClickRate * (6/10) + (e.score * (3/10)) * (4/10) ∧
        b.sampleSize = s.sampleSize) ∧
    (∀ e ∈ BEST_PRACTICES,
      (e.dayOfWeek, e.hourOfDay) ∉
        (analyzeHistoricalCore data filters now).allTimeSlots.map bucketKey →
      ∃ b ∈ (analyzeCombined data filters now).allTimeSlots,
        b.dayOfWeek = e.dayOfWeek ∧ b.hourOfDay = e.hourOfDay ∧
        b.score = e.score * (4/10) ∧
        b.avgOpenRate = e.score ∧
        b.avgClickRate = e.score * (3/10) ∧
        b.sampleSize = 0) ∧
    ((analyzeCombined data filters now).allTimeSlots.map bucketKey).Nodup ∧
    (∀ b ∈ (analyzeCombined data filters now).allTimeSlots,
      bucketKey b ∈
          (analyzeHistoricalCore data filters now).allTimeSlots.map bucketKey ∨
        bucketKey b ∈ BEST_PRACTICES.map (fun e => (e.dayOfWeek, e.hourOfDay))) := by
  have hslots := combined_allTimeSlots data filters now hne
  have hmem : ∀ b, b ∈ (analyzeCombined data filters now).allTimeSlots ↔
      b ∈ (combinedSlotMap data filters now).map (fun p => p.2) := by
    intro b
    rw [hslots, sortByScoreDesc_mem]
  have hnodupHist := histSlots_keys_nodup data filters now
  have memOfFind : ∀ (k : String × Nat) (b : TimeSlotAnalysis),
      assocFind k (combinedSlotMap data filters now) = some b →
      b ∈ (analyzeCombined data filters now).allTimeSlots := by
    intro k b hf
    rw [hmem]
    exact List.mem_map.2 ⟨(k, b), assocFind_mem _ _ _ hf, rfl⟩
  refine ⟨?_, ?_, ?_, ?_, ?_⟩
  · -- historical bucket without best-practice match
    intro s hs hnot
    have hbpnone : (analyzeBestPractices now).allTimeSlots.find?
        (fun y => decide (bucketKey y = bucketKey s)) = none := by
      rw [List.find?_eq_none]
      intro x hx hdec
      rw [decide_eq_true_eq] at hdec
      apply hnot
      rw [← hdec, ← bpSlots_keys now]
      exact List.mem_map_of_mem bucketKey hx
    have hseed := seeded_find _ hnodupHist (bucketKey s)
    rw [find?_keyf_of_nodup bucketKey _ hnodupHist hs] at hseed
    have hcomb := combinedSlotMap_find data filters now (bucketKey s)
    rw [hbpnone, hseed] at hcomb
    exact memOfFind _ _ hcomb
  · -- historical bucket blended with a matching best-practice entry
    intro s hs e he hkey
    have htmem : ({ dayOfWeek := e.dayOfWeek,
                    hourOfDay := e.hourOfDay,
                    timeLabel := e.timeLabel,
                    avgOpenRate := e.score,
                    avgClickRate := e.score * (3/10),
                    sampleSize := 0,
                    score := e.score } : TimeSlotAnalysis) ∈
        (analyzeBestPractices now).allTimeSlots := by
      rw [bpSlots_val]
      exact List.mem_map_of_mem _ he
    have hfindbp := find?_keyf_of_nodup bucketKey _ (bpSlots_keys_nodup now) htmem
    have hfindbp' : (analyzeBestPractices now).allTimeSlots.find?
        (fun y => decide (bucketKey y = bucketKey s)) =
        some { dayOfWeek := e.dayOfWeek,
               hourOfDay := e.hourOfDay,
               timeLabel := e.timeLabel,
               avgOpenRate := e.score,
               avgClickRate := e.score * (3/10),
               sampleSize := 0,
               score := e.score } := by
      rw [hkey]
      exact hfindbp
    have hseed := seeded_find _ hnodupHist (bucketKey s)
    rw [find?_keyf_of_nodup bucketKey _ hnodupHist hs] at hseed
    have hcomb := combinedSlotMap_find data filters now (bucketKey s)
    rw [hfindbp', hseed] at hcomb
    simp only [Option.elim] at hcomb
    exact ⟨_, memOfFind _ _ hcomb, rfl, rfl, rfl, rfl, rfl, rfl⟩
  · -- best-practice entry without a historical bucket
    intro e he hnot
    have htmem : ({ dayOfWeek := e.dayOfWeek,
                    hourOfDay := e.hourOfDay,
                    timeLabel := e.timeLabel,
                    avgOpenRate := e.score,
                    avgClickRate := e.score * (3/10),
                    sampleSize := 0,
                    score := e.score } : TimeSlotAnalysis) ∈
        (analyzeBestPractices now).allTimeSlots := by
      rw [bpSlots_val]
      exact List.mem_map_of_mem _ he
    have hfindbp := find?_keyf_of_nodup bucketKey _ (bpSlots_keys_nodup now) htmem
    have hhistnone : (analyzeHistoricalCore data filters now).allTimeSlots.find?
        (fun y => decide (bucketKey y = (e.dayOfWeek, e.hourOfDay))) = none := by
      rw [List.find?_eq_none]
      intro x hx hdec
      rw [decide_eq_true_eq] at hdec
      exact hnot (hdec ▸ List.mem_map_of_mem bucketKey hx)
    have hseed := seeded_find _ hnodupHist (e.dayOfWeek, e.hourOfDay)
    rw [hhistnone] at hseed
    have hcomb := combinedSlotMap_find data filters now (e.dayOfWeek, e.hourOfDay)
    have hfindbp2 : (analyzeBestPractices now).allTimeSlots.find?
        (fun y => decide (bucketKey y = (e.dayOfWeek, e.hourOfDay))) =
        some { dayOfWeek := e.dayOfWeek,
               hourOfDay := e.hourOfDay,
               timeLabel := e.timeLabel,
               avgOpenRate := e.score,
               avgClickRate := e.score * (3/10),
               sampleSize := 0,
               score := e.score } := hfindbp
    rw [hfindbp2, hseed] at hcomb
    simp only [Option.elim] at hcomb
    exact ⟨_, memOfFind _ _ hcomb, rfl, rfl, rfl, rfl, rfl, rfl⟩
  · -- distinct keys
    rw [hslots, ((sortByScoreDesc_perm _).map bucketKey).nodup_iff, List.map_map]
    have he : ((combinedSlotMap data filters now).map
          (bucketKey ∘ fun p => p.2)) =
        (combinedSlotMap data filters now).map Prod.fst :=
      List.map_congr_left fun p hp =>
        combinedSlotMap_entry_key data filters now p hp
    rw [he]
    exact combinedSlotMap_keys_nodup data filters now
  · -- no other buckets
    intro b hb
    rw [hmem] at hb
    obtain ⟨p, hp, rfl⟩ := List.mem_map.1 hb
    have hkeyp : bucketKey p.2 = p.1 :=
      combinedSlotMap_entry_key data filters now p hp
    have hsome : (assocFind p.1 (combinedSlotMap data filters now)).isSome := by
      rw [mem_assocFind_of_nodup _ (combinedSlotMap_keys_nodup data filters now)
        (show (p.1, p.2) ∈ combinedSlotMap data filters now from by
          cases p
          exact hp)]
      rfl
    rw [hkeyp]
    exact (combinedSlotMap_isSome data filters now p.1).1 hsome

/-- Witness for C2 at the spec's scenario-8 data set. -/
theorem C2_combined_blend_witness :
    sampleData ≠ [] ∧
    ((∀ s ∈ (analyzeHistoricalCore sampleData sampleFilters 7).allTimeSlots,
      bucketKey s ∉ BEST_PRACTICES.map (fun e => (e.dayOfWeek, e.hourOfDay)) →
      { s with score := s.score * (6/10) } ∈
        (analyzeCombined sampleData sampleFilters 7).allTimeSlots) ∧
    (∀ s ∈ (analyzeHistoricalCore sampleData sampleFilters 7).allTimeSlots,
      ∀ e ∈ BEST_PRACTICES, bucketKey s = (e.dayOfWeek, e.hourOfDay) →
      ∃ b ∈ (analyzeCombined sampleData sampleFilters 7).allTimeSlots,
        b.dayOfWeek = s.dayOfWeek ∧ b.hourOfDay = s.hourOfDay ∧
        b.score = s.score * (6/10) + e.score * (4/10) ∧
        b.avgOpenRate = s.avgOpenRate * (6/10) + e.score * (4/10) ∧
        b.avgClickRate = s.avgClickRate * (6/10) + (e.score * (3/10)) * (4/10) ∧
        b.sampleSize = s.sampleSize) ∧
    (∀ e ∈ BEST_PRACTICES,
      (e.dayOfWeek, e.hourOfDay) ∉
        (analyzeHistoricalCore sampleData sampleFilters 7).allTimeSlots.map
          bucketKey →
      ∃ b ∈ (analyzeCombined sampleData sampleFilters 7).allTimeSlots,
        b.dayOfWeek = e.dayOfWeek ∧ b.hourOfDay = e.hourOfDay ∧
        b.score = e.score * (4/10) ∧
        b.avgOpenRate = e.score ∧
        b.avgClickRate = e.score * (3/10) ∧
        b.sampleSize = 0) ∧
    ((analyzeCombined sampleData sampleFilters 7).allTimeSlots.map
        bucketKey).Nodup ∧
    (∀ b ∈ (analyzeCombined sampleData sampleFilters 7).allTimeSlots,
      bucketKey b ∈
          (analyzeHistoricalCore sampleData sampleFilters 7).allTimeSlots.map
            bucketKey ∨
        bucketKey b ∈
          BEST_PRACTICES.map (fun e => (e.dayOfWeek, e.hourOfDay)))) :=
  ⟨by decide, C2_combined_blend sampleData sampleFilters 7 (by decide)⟩

/-- C3: historical analysis on an empty record list fails with the
"no data available for analysis" error, and on any non-empty record list it
does not fail. -/
theorem C3_empty_dataset_error (data : List ProcessedEmailData)
    (filters filters' : FilterOptions) (now now' : Int) (hne : data ≠ []) :
    performAnalysis [] "historical" filters' now' =
        Except.error "No data available for analysis" ∧
    ∃ r, performAnalysis data "historical" filters now = Except.ok r := by
  constructor
  · rfl
  · refine ⟨analyzeHistoricalCore data filters now, ?_⟩
    simp [performAnalysis, analyzeHistoricalData, hne]

/-- Witness for C3 at the spec's scenario-8 data set. -/
theorem C3_empty_dataset_error_witness :
    sampleData ≠ [] ∧
    (performAnalysis [] "historical" sampleFilters 3 =
        Except.error "No data available for analysis" ∧
    ∃ r, performAnalysis sampleData "historical" sampleFilters 7 =
        Except.ok r) :=
  ⟨by decide, C3_empty_dataset_error sampleData sampleFilters sampleFilters 7 3
    (by decide)⟩

/-- C4: combined analysis on an empty record list raises no error and returns
the same (primary, secondary, tertiary) triple as best-practices analysis on
an empty record list with the same filters. -/
theorem C4_combined_fallback (filters : FilterOptions) (now : Int) :
    (performAnalysis [] "combined" filters now).map
        (fun r => (r.primary, r.secondary, r.tertiary)) =
      (performAnalysis [] "best-practices" filters now).map
        (fun r => (r.primary, r.secondary, r.tertiary)) := rfl

lemma getD_of_lt (l : List TimeSlotAnalysis) (i : Nat) (h : i < l.length) :
    (l[i]?).getD createEmptyTimeSlot = l.get ⟨i, h⟩ := by
  rw [List.getElem?_eq_getElem h]
  rfl

lemma getD_of_ge (l : List TimeSlotAnalysis) (i : Nat) (h : l.length ≤ i) :
    (l[i]?).getD createEmptyTimeSlot = createEmptyTimeSlot := by
  rw [List.getElem?_eq_none h]
  rfl

/-- Every successful analysis result draws its top-3 slots from the ranked
list with the sentinel as fallback. -/
lemma result_rank_shape (data : List ProcessedEmailData) (analysisType : String)
    (filters : FilterOptions) (now : Int) (res : AnalysisResult)
    (hok : performAnalysis data analysisType filters now = Except.ok res) :
    res.primary = (res.allTimeSlots[0]?).getD createEmptyTimeSlot ∧
    res.secondary = (res.allTimeSlots[1]?).getD createEmptyTimeSlot ∧
    res.tertiary = (res.allTimeSlots[2]?).getD createEmptyTimeSlot := by
  unfold performAnalysis at hok
  by_cases h1 : analysisType = "best-practices"
  · rw [if_pos h1] at hok
    obtain rfl : analyzeBestPractices now = res := Except.ok.inj hok
    exact ⟨rfl, rfl, rfl⟩
  · rw [if_neg h1] at hok
    by_cases h2 : analysisType = "historical"
    · rw [if_pos h2] at hok
      unfold analyzeHistoricalData at hok
      by_cases hd : data = []
      · rw [if_pos hd] at hok
        cases hok
      · rw [if_neg hd] at hok
        obtain rfl : analyzeHistoricalCore data filters now = res :=
          Except.ok.inj hok
        exact ⟨rfl, rfl, rfl⟩
    · rw [if_neg h2] at hok
      by_cases h3 : analysisType = "combined"
      · rw [if_pos h3] at hok
        obtain rfl : analyzeCombined data filters now = res := Except.ok.inj hok
        by_cases hd : data = []
        · have hb : analyzeCombined data filters now = analyzeBestPractices now := by
            simp [analyzeCombined, hd]
          rw [hb]
          exact ⟨rfl, rfl, rfl⟩
        · refine ⟨?_, ?_, ?_⟩ <;> simp [analyzeCombined, hd]
      · rw [if_neg h3] at hok
        cases hok

/-- The historical/combined ranked lists are produced by the descending
score sort. -/
lemma result_sorted (data : List ProcessedEmailData) (analysisType : String)
    (filters : FilterOptions) (now : Int) (res : AnalysisResult)
    (hmode : analysisType = "historical" ∨ analysisType = "combined")
    (hok : performAnalysis data analysisType filters now = Except.ok res) :
    List.Pairwise (fun a b => b.score ≤ a.score) res.allTimeSlots := by
  rcases hmode with rfl | rfl
  · rw [show performAnalysis data "historical" filters now =
        analyzeHistoricalData data filters now from rfl] at hok
    unfold analyzeHistoricalData at hok
    by_cases hd : data = []
    · rw [if_pos hd] at hok
      cases hok
    · rw [if_neg hd] at hok
      obtain rfl : analyzeHistoricalCore data filters now = res :=
        Except.ok.inj hok
      rw [analyzeHistoricalCore_allTimeSlots]
      exact sortByScoreDesc_sorted _
  · rw [show performAnalysis data "combined" filters now =
        Except.ok (analyzeCombined data filters now) from rfl] at hok
    obtain rfl : analyzeCombined data filters now = res := Except.ok.inj hok
    by_cases hd : data = []
    · have hb : (analyzeCombined data filters now).allTimeSlots =
          (analyzeBestPractices now).allTimeSlots := by
        simp [analyzeCombined, hd]
      rw [hb, bpSlots_val]
      norm_num [BEST_PRACTICES, List.pairwise_cons]
    · rw [combined_allTimeSlots data filters now hd]
      exact sortByScoreDesc_sorted _

/-- C6: whenever historical or combined analysis succeeds, the returned full
ranked list is sorted by score in non-increasing order: for i < j the score
at position i is ≥ the score at position j. -/
theorem C6_ranked_list_sorted (data : List ProcessedEmailData)
    (analysisType : String) (filters : FilterOptions) (now : Int)
    (res : AnalysisResult)
    (hmode : analysisType = "historical" ∨ analysisType = "combined")
    (hok : performAnalysis data analysisType filters now = Except.ok res) :
    ∀ (i j : Nat) (hij : i < j) (hj : j < res.allTimeSlots.length),
      (res.allTimeSlots.get ⟨j, hj⟩).score ≤
        (res.allTimeSlots.get ⟨i, Nat.lt_trans hij hj⟩).score := by
  have hsorted := result_sorted data analysisType filters now res hmode hok
  have hget := List.pairwise_iff_get.1 hsorted
  intro i j hij hj
  exact hget ⟨i, Nat.lt_trans hij hj⟩ ⟨j, hj⟩ hij

/-- Witness for C6: combined analysis of an empty list (the best-practices
ranked list), positions 0 and 1. -/
theorem C6_ranked_list_sorted_witness :
    ((analyzeBestPractices 0).allTimeSlots.get ⟨1, by decide⟩).score ≤
      ((analyzeBestPractices 0).allTimeSlots.get ⟨0, by decide⟩).score :=
  C6_ranked_list_sorted [] "combined" sampleFilters 0 (analyzeBestPractices 0)
    (Or.inr rfl) rfl 0 1 (by decide) (by decide)

/-- C7: for every successful analysis, the primary/secondary/tertiary slots
are the first three elements of the ranked list; when the list has fewer than
3 elements, the missing slots are filled with the sentinel bucket
(dayOfWeek "N/A", zero rates and score) instead of failing. -/
theorem C7_rank_fallback (data : List ProcessedEmailData)
    (analysisType : String) (filters : FilterOptions) (now : Int)
    (res : AnalysisResult)
    (hok : performAnalysis data analysisType filters now = Except.ok res) :
    (∀ h3 : 3 ≤ res.allTimeSlots.length,
      res.primary = res.allTimeSlots.get ⟨0, by omega⟩ ∧
      res.secondary = res.allTimeSlots.get ⟨1, by omega⟩ ∧
      res.tertiary = res.allTimeSlots.get ⟨2, by omega⟩) ∧
    (res.allTimeSlots.length = 0 → res.primary = createEmptyTimeSlot) ∧
    (res.allTimeSlots.length ≤ 1 → res.secondary = createEmptyTimeSlot) ∧
    (res.allTimeSlots.length ≤ 2 → res.tertiary = createEmptyTimeSlot) ∧
    createEmptyTimeSlot.dayOfWeek = "N/A" ∧
    createEmptyTimeSlot.avgOpenRate = 0 ∧
    createEmptyTimeSlot.avgClickRate = 0 ∧
    createEmptyTimeSlot.score = 0 := by
  obtain ⟨hp, hs, ht⟩ :=
    result_rank_shape data analysisType filters now res hok
  refine ⟨?_, ?_, ?_, ?_, rfl, rfl, rfl, rfl⟩
  · intro h3
    exact ⟨by rw [hp, getD_of_lt _ 0 (by omega)],
      by rw [hs, getD_of_lt _ 1 (by omega)],
      by rw [ht, getD_of_lt _ 2 (by omega)]⟩
  · intro h0
    rw [hp, getD_of_ge _ 0 (by omega)]
  · intro h1
    rw [hs, getD_of_ge _ 1 (by omega)]
  · intro h2
    rw [ht, getD_of_ge _ 2 (by omega)]

/-- Witness for C7: historical analysis of the scenario-8 data (2 buckets, so
the tertiary slot falls back to the sentinel). -/
theorem C7_rank_fallback_witness :
    (∀ h3 : 3 ≤ (analyzeHistoricalCore sampleData sampleFilters 7).allTimeSlots.length,
      (analyzeHistoricalCore sampleData sampleFilters 7).primary =
        (analyzeHistoricalCore sampleData sampleFilters 7).allTimeSlots.get
          ⟨0, by omega⟩ ∧
      (analyzeHistoricalCore sampleData sampleFilters 7).secondary =
        (analyzeHistoricalCore sampleData sampleFilters 7).allTimeSlots.get
          ⟨1, by omega⟩ ∧
      (analyzeHistoricalCore sampleData sampleFilters 7).tertiary =
        (analyzeHistoricalCore sampleData sampleFilters 7).allTimeSlots.get
          ⟨2, by omega⟩) ∧
    ((analyzeHistoricalCore sampleData sampleFilters 7).allTimeSlots.length = 0 →
      (analyzeHistoricalCore sampleData sampleFilters 7).primary =
        createEmptyTimeSlot) ∧
    ((analyzeHistoricalCore sampleData sampleFilters 7).allTimeSlots.length ≤ 1 →
      (analyzeHistoricalCore sampleData sampleFilters 7).secondary =
        createEmptyTimeSlot) ∧
    ((analyzeHistoricalCore sampleData sampleFilters 7).allTimeSlots.length ≤ 2 →
      (analyzeHistoricalCore sampleData sampleFilters 7).tertiary =
        createEmptyTimeSlot) ∧
    createEmptyTimeSlot.dayOfWeek = "N/A" ∧
    createEmptyTimeSlot.avgOpenRate = 0 ∧
    createEmptyTimeSlot.avgClickRate = 0 ∧
    createEmptyTimeSlot.score = 0 :=
  C7_rank_fallback sampleData "historical" sampleFilters 7
    (analyzeHistoricalCore sampleData sampleFilters 7) rfl

/-- C5: best-practices analysis ignores the records and filters entirely and
returns exactly the 5 fixed best-practice buckets in the table's order, each
with `sampleSize = 0`, `avgOpenRate` = entry score, `avgClickRate` = entry
score × 0.3 and `score` = entry score (the right-hand side is a closed
constant, so the result is independent of `data`, `filters` and `now`). -/
theorem C5_best_practices_fixed (data : List ProcessedEmailData)
    (filters : FilterOptions) (now : Int) :
    (performAnalysis data "best-practices" filters now).map
        (fun r => r.allTimeSlots) =
      Except.ok (BEST_PRACTICES.map (fun e =>
        { dayOfWeek := e.dayOfWeek,
          hourOfDay := e.hourOfDay,
          timeLabel := e.timeLabel,
          avgOpenRate := e.score,
          avgClickRate := e.score * (3/10),
          sampleSize := 0,
          score := e.score })) ∧
    (performAnalysis data "best-practices" filters now).map
        (fun r => r.allTimeSlots.map fun b =>
          (b.dayOfWeek, b.hourOfDay, b.avgOpenRate, b.avgClickRate,
            b.sampleSize, b.score)) =
      Except.ok
        [("Tuesday", 10, 95, 57/2, 0, 95),
         ("Thursday", 14, 90, 27, 0, 90),
         ("Wednesday", 9, 85, 51/2, 0, 85),
         ("Tuesday", 14, 82, 123/5, 0, 82),
         ("Thursday", 10, 80, 24, 0, 80)] := by
  constructor
  · rfl
  · have h1 : (performAnalysis data "best-practices" filters now).map
        (fun r => r.allTimeSlots.map fun b =>
          (b.dayOfWeek, b.hourOfDay, b.avgOpenRate, b.avgClickRate,
            b.sampleSize, b.score)) =
        Except.ok ((analyzeBestPractices now).allTimeSlots.map fun b =>
          (b.dayOfWeek, b.hourOfDay, b.avgOpenRate, b.avgClickRate,
            b.sampleSize, b.score)) := rfl
    rw [h1, bpSlots_val]
    refine congrArg Except.ok ?_
    norm_num [BEST_PRACTICES]

/-- C8 counterexample: two invocations of the same analysis at different
wall-clock instants disagree on the generation-timestamp metadata field, so
the results are not identical "including all metadata fields". -/
theorem C8_determinism_counterexample :
    (performAnalysis [] "best-practices" sampleFilters 0).map
        (fun r => r.metadata.timestamp) ≠
      (performAnalysis [] "best-practices" sampleFilters 1).map
        (fun r => r.metadata.timestamp) := by
  intro h
  rw [show (performAnalysis [] "best-practices" sampleFilters 0).map
      (fun r => r.metadata.timestamp) = Except.ok 0 from rfl,
    show (performAnalysis [] "best-practices" sampleFilters 1).map
      (fun r => r.metadata.timestamp) = Except.ok 1 from rfl] at h
  exact absurd (Except.ok.inj h) (by decide)

/-- C8 (amended): with the wall clock made explicit, analysis is a
deterministic pure function: two invocations with the same records, mode and
filters agree on everything except the clock-derived metadata (the generation
timestamp, and the placeholder date range of best-practices results), i.e.
after `eraseClock` the results of any two invocations coincide. -/
theorem C8_determinism_modulo_clock (data : List ProcessedEmailData)
    (analysisType : String) (filters : FilterOptions) (t1 t2 : Int) :
    (performAnalysis data analysisType filters t1).map eraseClock =
      (performAnalysis data analysisType filters t2).map eraseClock := by
  unfold performAnalysis
  by_cases h1 : analysisType = "best-practices"
  · rw [if_pos h1, if_pos h1]
    rfl
  · rw [if_neg h1, if_neg h1]
    by_cases h2 : analysisType = "historical"
    · rw [if_pos h2, if_pos h2]
      unfold analyzeHistoricalData
      by_cases hd : data = []
      · rw [if_pos hd, if_pos hd]
      · rw [if_neg hd, if_neg hd]
        rfl
    · rw [if_neg h2, if_neg h2]
      by_cases h3 : analysisType = "combined"
      · rw [if_pos h3, if_pos h3]
        unfold analyzeCombined
        by_cases hd : data = []
        · rw [if_pos hd, if_pos hd]
          rfl
        · rw [if_neg hd, if_neg hd]
          rfl
      · rw [if_neg h3, if_neg h3]

/-- C9 counterexample: in best-practices mode the result's metadata carries
the hard-coded wildcard filter set, not the caller-supplied one. -/
theorem C9_filters_echo_counterexample :
    (performAnalysis [] "best-practices" sampleFilters 0).map
        (fun r => r.metadata.filters) =
      Except.ok { businessUnit := "All", organizationType := "All",
                  campaignType := "All" } ∧
    ({ businessUnit := "All", organizationType := "All",
       campaignType := "All" } : FilterOptions) ≠ sampleFilters :=
  ⟨rfl, by decide⟩

/-- C9 (amended): historical analysis and combined analysis on a non-empty
record list echo the caller-supplied filters into the result metadata
unchanged; best-practices analysis — and combined analysis on an empty list,
which delegates to it — instead report the fixed wildcard filter set
All/All/All. -/
theorem C9_filters_echo (data : List ProcessedEmailData)
    (analysisType : String) (filters : FilterOptions) (now : Int) :
    ((analysisType = "historical" ∨ analysisType = "combined") → data ≠ [] →
      (performAnalysis data analysisType filters now).map
          (fun r => r.metadata.filters) = Except.ok filters) ∧
    ((analysisType = "best-practices" ∨
        (analysisType = "combined" ∧ data = [])) →
      (performAnalysis data analysisType filters now).map
          (fun r => r.metadata.filters) =
        Except.ok { businessUnit := "All", organizationType := "All",
                    campaignType := "All" }) := by
  constructor
  · rintro (rfl | rfl) hne
    · simp [performAnalysis, analyzeHistoricalData, hne]
      rfl
    · simp [performAnalysis, analyzeCombined, hne]
      rfl
  · rintro (rfl | ⟨rfl, rfl⟩)
    · rfl
    · rfl

/-- Witness for C9 (amended): historical mode on the scenario-8 data echoes
the non-wildcard sample filters. -/
theorem C9_filters_echo_witness :
    (performAnalysis sampleData "historical" sampleFilters 7).map
        (fun r => r.metadata.filters) = Except.ok sampleFilters :=
  (C9_filters_echo sampleData "historical" sampleFilters 7).1 (Or.inl rfl)
    (by decide)

lemma noData_ne_unknownMsg (s : String) :
    "No data available for analysis" ≠ "Unknown analysis type: " ++ s := by
  obtain ⟨sd⟩ := s
  intro h
  have h2 : ("No data available for analysis").data =
      ("Unknown analysis type: ").data ++ sd := congrArg String.data h
  have h3 : ("Unknown analysis type: ").data <+:
      ("No data available for analysis").data := ⟨sd, h2.symm⟩
  exact absurd h3 (by decide)

/-- C10: dispatching with an analysis type outside the three known ones
throws the error naming the unknown type, and for the three known types the
dispatcher never produces an error of that shape. -/
theorem C10_unknown_analysis_type (data : List ProcessedEmailData)
    (filters : FilterOptions) (now : Int) (t s : String) :
    (t ≠ "best-practices" → t ≠ "historical" → t ≠ "combined" →
      performAnalysis data t filters now =
        Except.error ("Unknown analysis type: " ++ t)) ∧
    ((t = "best-practices" ∨ t = "historical" ∨ t = "combined") →
      performAnalysis data t filters now ≠
        Except.error ("Unknown analysis type: " ++ s)) := by
  constructor
  · intro h1 h2 h3
    simp [performAnalysis, h1, h2, h3]
  · rintro (rfl | rfl | rfl) h
    · rw [show performAnalysis data "best-practices" filters now =
          Except.ok (analyzeBestPractices now) from rfl] at h
      cases h
    · rw [show performAnalysis data "historical" filters now =
          analyzeHistoricalData data filters now from rfl] at h
      unfold analyzeHistoricalData at h
      by_cases hd : data = []
      · rw [if_pos hd] at h
        exact noData_ne_unknownMsg s (Except.error.inj h)
      · rw [if_neg hd] at h
        cases h
    · rw [show performAnalysis data "combined" filters now =
          Except.ok (analyzeCombined data filters now) from rfl] at h
      cases h

/-- Witness for C10: the literal type "bogus" is rejected with the naming
error, and the known type "combined" never yields that error. -/
theorem C10_unknown_analysis_type_witness :
    performAnalysis sampleData "bogus" sampleFilters 0 =
        Except.error ("Unknown analysis type: " ++ "bogus") ∧
    performAnalysis sampleData "combined" sampleFilters 0 ≠
        Except.error ("Unknown analysis type: " ++ "bogus") :=
  ⟨(C10_unknown_analysis_type sampleData sampleFilters 0 "bogus" "bogus").1
      (by decide) (by decide) (by decide),
    (C10_unknown_analysis_type sampleData sampleFilters 0 "combined" "bogus").2
      (Or.inr (Or.inr rfl))⟩

end EmailSendTimeOptimizer
